import Mathlib

/-!
Verification of the record-store program `individual.py`: a command-line
utility over a SQLite file with two tables,

  cities (race_id INTEGER PRIMARY KEY AUTOINCREMENT, race_name)
  races  (race_id INTEGER PRIMARY KEY AUTOINCREMENT, race_name, number_name, type_name)

and four operations: `create_db` (schema ensure), `add_plane` (get-or-create
the city by name, then insert a race row), `select_allplanes` (join and list),
and `display_plane` (pure formatting).  The embedding below models each table
as a list of rows in insertion order; AUTOINCREMENT ids are `length + 1`,
which agrees with SQLite here because the program never deletes rows, so the
next rowid is always the row count plus one.
-/

/-- A row of the `cities` table (see CREATE TABLE in `create_db`,
`individual.py` lines 52-59): a surrogate autoincrement id and the
destination name. -/
structure CityRow where
  race_id : Nat
  race_name : String
deriving DecidableEq, Repr

/-- A row of the `races` table (`individual.py` lines 61-71): a surrogate
autoincrement id, the destination name stored redundantly as text, the race
number and the plane type. -/
structure RaceRow where
  race_id : Nat
  race_name : String
  number_name : Int
  type_name : Int
deriving DecidableEq, Repr

/-- The committed contents of the two tables, rows in insertion order. -/
structure DB where
  cities : List CityRow
  races : List RaceRow
deriving DecidableEq, Repr

/-- A freshly initialized store: both tables exist and are empty. -/
def dbEmpty : DB := ⟨[], []⟩

/-- The next AUTOINCREMENT rowid of a table.  The program never deletes
rows, so SQLite's next id is always the current row count plus one. -/
def nextId (rows : List α) : Nat := rows.length + 1

/-- The lookup `SELECT race_id FROM cities WHERE race_name = ?`
(`individual.py` lines 89-95): first row whose name matches exactly. -/
def lookupCity (cities : List CityRow) (race : String) : Option CityRow :=
  cities.find? (fun c => c.race_name == race)

/-- `add_plane` (`individual.py` lines 79-119), success path: look the city
up by name; if absent insert a new `cities` row; then insert the `races` row
carrying the name, number and type (the captured city id is not stored). -/
def add_plane (db : DB) (race : String) (number : Int) (type : Int) : DB :=
  let cities1 :=
    match lookupCity db.cities race with
    | some _ => db.cities
    | none => db.cities ++ [⟨nextId db.cities, race⟩]
  { cities := cities1
    races := db.races ++ [⟨nextId db.races, race, number, type⟩] }

/-- One record of the list returned by `select_allplanes`: the dict
with keys race, number, type (`individual.py` lines 137-144). -/
structure PlaneRec where
  race : String
  number : Int
  type : Int
deriving DecidableEq, Repr

/-- The record built from a `races` row. -/
def toRec (r : RaceRow) : PlaneRec := ⟨r.race_name, r.number_name, r.type_name⟩

/-- `select_allplanes` (`individual.py` lines 122-147), success path: the SQL
inner join `FROM races INNER JOIN cities ON cities.race_id = races.race_id`,
scanning `races` in insertion order and emitting one output record per
matching `cities` row.  Note the join is on the two independent autoincrement
ids, not on the destination name. -/
def select_allplanes (db : DB) : List PlaneRec :=
  db.races.flatMap (fun r =>
    (db.cities.filter (fun c => c.race_id == r.race_id)).map (fun _ => toRec r))

/-- Sequential `add_plane` calls, each with its (race, number, type). -/
def addAll (db : DB) (ops : List (String × Int × Int)) : DB :=
  ops.foldl (fun d o => add_plane d o.1 o.2.1 o.2.2) db

/-- `add_plane` with its try/except (`individual.py` lines 85-119).  A
storage failure anywhere in the try block (modelled as `some e`, the text of
the `sqlite3.Error`) reaches the except branch before `conn.commit()` runs;
the connection then closes without a commit, so SQLite rolls every pending
statement back and the committed store is unchanged.  The error is written to
the log (second component) and nothing is raised: the function returns
normally either way. -/
def add_plane_op (db : DB) (race : String) (number : Int) (type : Int)
    (failure : Option String) : DB × Option String :=
  match failure with
  | none => (add_plane db race number type, none)
  | some e => (db, some ("Error adding plane: " ++ e))

/-- `select_allplanes` with its try/except (`individual.py` lines 123-147):
on a storage failure the except branch logs the error and returns the empty
list; otherwise the join result is returned with nothing logged. -/
def select_allplanes_op (db : DB) (failure : Option String) :
    List PlaneRec × Option String :=
  match failure with
  | none => (select_allplanes db, none)
  | some e => ([], some ("Error selecting planes: " ++ e))

/-- The schema-level state of the database file: each table either exists
with its rows, or does not exist yet.  SQLite allows at most one table per
name, which the `Option` encodes. -/
structure Store where
  citiesTable : Option (List CityRow)
  racesTable : Option (List RaceRow)
deriving DecidableEq, Repr

/-- `CREATE TABLE IF NOT EXISTS`: keep an existing table with its contents,
create an empty one otherwise. -/
def createTableIfNotExists (table : Option (List α)) : Option (List α) :=
  match table with
  | some rows => some rows
  | none => some []

/-- `create_db` (`individual.py` lines 47-76), success path: ensure both
tables exist via CREATE TABLE IF NOT EXISTS; existing contents untouched. -/
def create_db (s : Store) : Store :=
  { citiesTable := createTableIfNotExists s.citiesTable
    racesTable := createTableIfNotExists s.racesTable }

/-- `add_plane` acting on the schema-level store.  If either table is
missing, the first statement raises a no-such-table `sqlite3.Error`, which
the except branch swallows, leaving the store unchanged. -/
def store_add_plane (s : Store) (race : String) (number : Int) (type : Int) : Store :=
  match s.citiesTable, s.racesTable with
  | some cs, some rs =>
      let db := add_plane ⟨cs, rs⟩ race number type
      ⟨some db.cities, some db.races⟩
  | _, _ => s

/-- `select_allplanes` acting on the schema-level store: a missing table
raises, the except branch returns the empty list. -/
def store_select (s : Store) : List PlaneRec :=
  match s.citiesTable, s.racesTable with
  | some cs, some rs => select_allplanes ⟨cs, rs⟩
  | _, _ => []

/-- The parsed subcommand of the command line (`individual.py` lines
160-210): add with its three required arguments, display, select, or no
subcommand at all. -/
inductive Command where
  | add (race : String) (number : Int) (type : Int)
  | display
  | select
  | noCommand
deriving DecidableEq, Repr

/-- `main` (`individual.py` lines 150-219) as a state transformer on the
store (`main` itself is a reserved entry-point name in Lean): every
invocation first runs `create_db`, then only the add branch writes rows;
display reads and prints, and select and the bare invocation do nothing
further. -/
def main_run (s : Store) (cmd : Command) : Store :=
  let s1 := create_db s
  match cmd with
  | .add race number type => store_add_plane s1 race number type
  | .display => s1
  | .select => s1
  | .noCommand => s1

/-- An input record of `display_plane`: the dict may lack any of its keys,
which `dict.get` replaces by the defaults on `individual.py` lines 36-38. -/
structure PlaneDict where
  race : Option String
  number : Option Int
  type : Option Int
deriving DecidableEq, Repr

/-- A run of `n` spaces. -/
def spaces (n : Nat) : String := String.mk (List.replicate n ' ')

/-- A run of `n` dashes, as in the Python expression building `line`. -/
def dashes (n : Nat) : String := String.mk (List.replicate n '-')

/-- Python format spec right alignment to width `w`. -/
def padLeft (w : Nat) (s : String) : String := spaces (w - s.length) ++ s

/-- Python format spec left alignment to width `w`. -/
def padRight (w : Nat) (s : String) : String := s ++ spaces (w - s.length)

/-- Python format spec centering to width `w` (extra space on the right). -/
def padCenter (w : Nat) (s : String) : String :=
  spaces ((w - s.length) / 2) ++ s ++ spaces (w - s.length - (w - s.length) / 2)

/-- The separator line of the table (`individual.py` lines 15-20). -/
def tableLine : String :=
  "+-" ++ dashes 4 ++ "-+-" ++ dashes 30 ++ "-+-" ++ dashes 20 ++ "-+-" ++ dashes 12 ++ "-+"

/-- The header line of the table (`individual.py` lines 22-29). -/
def headerLine : String :=
  "| " ++ padCenter 4 "No" ++ " | " ++ padCenter 30 "Destination" ++ " | " ++
    padCenter 20 "Race number" ++ " | " ++ padCenter 12 "Plane type" ++ " |"

/-- The Destination cell: the value of the get call with default empty
string on line 36. -/
def raceCell (p : PlaneDict) : String := p.race.getD ""

/-- The Race-number cell: the int rendered by the format spec, or the empty
string default of the get call on line 37. -/
def numberCell (p : PlaneDict) : String :=
  match p.number with
  | some n => toString n
  | none => ""

/-- The Plane-type cell: the value of the get call with default 0 on
line 38. -/
def typeCell (p : PlaneDict) : Int := p.type.getD 0

/-- The row line printed for the record at 1-based position `idx`
(`individual.py` lines 33-40), with already-extracted cell contents. -/
def mkRowLine (idx : Nat) (race : String) (number : String) (type : Int) : String :=
  "| " ++ padLeft 4 (toString idx) ++ " | " ++ padRight 30 race ++ " | " ++
    padRight 20 number ++ " | " ++ padLeft 12 (toString type) ++ " |"

/-- The row line printed for a record, cells extracted via the get calls. -/
def rowLine (idx : Nat) (p : PlaneDict) : String :=
  mkRowLine idx (raceCell p) (numberCell p) (typeCell p)

/-- One observable output event of `display_plane`: a printed line or the
informational log message. -/
inductive OutEvent where
  | printed (line : String)
  | logged (msg : String)
deriving DecidableEq, Repr

/-- `display_plane` (`individual.py` lines 13-44): on a non-empty list,
print the frame, the header, the frame, then for each record (enumerated
from 1) its row and a frame line; on an empty list, log an informational
message and print nothing. -/
def display_plane (staff : List PlaneDict) : List OutEvent :=
  if staff.isEmpty then
    [.logged "The flight list is empty."]
  else
    [.printed tableLine, .printed headerLine, .printed tableLine] ++
      (staff.enumFrom 1).flatMap
        (fun ip => [.printed (rowLine ip.1 ip.2), .printed tableLine])

/-! ### Basic lemmas about `add_plane` -/

/-- Every `add_plane` appends exactly one `races` row, with the next id and
the given fields, whichever branch the city lookup takes. -/
lemma add_plane_races (db : DB) (race : String) (number type : Int) :
    (add_plane db race number type).races =
      db.races ++ [⟨nextId db.races, race, number, type⟩] := rfl

/-- When the destination name is already present, `add_plane` leaves the
`cities` table unchanged. -/
lemma add_plane_cities_seen (db : DB) (race : String) (number type : Int)
    (h : race ∈ db.cities.map (fun c => c.race_name)) :
    (add_plane db race number type).cities = db.cities := by
  obtain ⟨c, hc, hname⟩ := List.mem_map.mp h
  have hsome : (lookupCity db.cities race).isSome := by
    apply List.find?_isSome.mpr
    exact ⟨c, hc, by simp [hname]⟩
  obtain ⟨c2, hc2⟩ := Option.isSome_iff_exists.mp hsome
  simp [add_plane, hc2]

/-- When the destination name is unseen, `add_plane` appends exactly one
`cities` row carrying the next id and that name. -/
lemma add_plane_cities_fresh (db : DB) (race : String) (number type : Int)
    (h : race ∉ db.cities.map (fun c => c.race_name)) :
    (add_plane db race number type).cities =
      db.cities ++ [⟨nextId db.cities, race⟩] := by
  have hfind : lookupCity db.cities race = none := by
    apply List.find?_eq_none.mpr
    intro c hc
    simp only [beq_iff_eq]
    intro he
    exact h (List.mem_map.mpr ⟨c, hc, he⟩)
  simp [add_plane, hfind]

/-- A `races` row with a matching `cities` row contributes its record to the
join output. -/
lemma mem_select (db : DB) (r : RaceRow) (c : CityRow)
    (hr : r ∈ db.races) (hc : c ∈ db.cities) (hid : c.race_id = r.race_id) :
    toRec r ∈ select_allplanes db := by
  unfold select_allplanes
  apply List.mem_flatMap.mpr
  refine ⟨r, hr, ?_⟩
  apply List.mem_map.mpr
  refine ⟨c, ?_, rfl⟩
  exact List.mem_filter.mpr ⟨hc, by simp [hid]⟩

/-! ### The reachable-state invariant under pairwise-fresh names -/

/-- Running a block of adds whose destination names are all fresh and
pairwise distinct: each add takes the insert branch, so the city names grow
by exactly the names of the block and the two tables keep equal length. -/
lemma addAll_cities_spec (ops : List (String × Int × Int)) :
    ∀ db : DB,
      (db.cities.map (fun c => c.race_name) ++ ops.map (fun o => o.1)).Nodup →
      db.cities.length = db.races.length →
      (addAll db ops).cities.map (fun c => c.race_name) =
        db.cities.map (fun c => c.race_name) ++ ops.map (fun o => o.1) ∧
      (addAll db ops).cities.length = (addAll db ops).races.length := by
  induction ops with
  | nil =>
    intro db _ hlen
    exact ⟨by simp [addAll], by simpa [addAll] using hlen⟩
  | cons o rest ih =>
    intro db hnd hlen
    have hfresh : o.1 ∉ db.cities.map (fun c => c.race_name) := by
      rw [List.map_cons, List.nodup_append] at hnd
      exact fun hmem => hnd.2.2 hmem (List.mem_cons_self _ _)
    have hcities := add_plane_cities_fresh db o.1 o.2.1 o.2.2 hfresh
    have hstep : addAll db (o :: rest) = addAll (add_plane db o.1 o.2.1 o.2.2) rest := rfl
    have hnames1 : (add_plane db o.1 o.2.1 o.2.2).cities.map (fun c => c.race_name)
        = db.cities.map (fun c => c.race_name) ++ [o.1] := by
      rw [hcities]; simp
    have hlen1 : (add_plane db o.1 o.2.1 o.2.2).cities.length
        = (add_plane db o.1 o.2.1 o.2.2).races.length := by
      rw [hcities, add_plane_races]
      simp [hlen]
    have hnd1 : ((add_plane db o.1 o.2.1 o.2.2).cities.map (fun c => c.race_name)
        ++ rest.map (fun o => o.1)).Nodup := by
      rw [hnames1, List.append_assoc, List.singleton_append]
      simpa using hnd
    obtain ⟨h1, h2⟩ := ih (add_plane db o.1 o.2.1 o.2.2) hnd1 hlen1
    refine ⟨?_, by rw [hstep]; exact h2⟩
    rw [hstep, h1, hnames1]
    simp

/-! ### Characterizing the join output -/

/-- No `cities` row carries an id that is absent from the id column. -/
lemma filter_id_not_mem (cities : List CityRow) (k : Nat)
    (h : k ∉ cities.map (fun c => c.race_id)) :
    cities.filter (fun c => c.race_id == k) = [] := by
  apply List.filter_eq_nil_iff.mpr
  intro c hc
  simp only [beq_iff_eq]
  intro he
  exact h (List.mem_map.mpr ⟨c, hc, he⟩)

/-- With pairwise-distinct city ids (the PRIMARY KEY invariant), the group
of `cities` rows matching a given id collapses to at most one output
record. -/
lemma join_group (cities : List CityRow) (k : Nat) (x : PlaneRec)
    (hnd : (cities.map (fun c => c.race_id)).Nodup) :
    (cities.filter (fun c => c.race_id == k)).map (fun _ => x) =
      if cities.any (fun c => c.race_id == k) then [x] else [] := by
  induction cities with
  | nil => simp
  | cons c cs ih =>
    rw [List.map_cons, List.nodup_cons] at hnd
    by_cases hck : c.race_id = k
    · subst hck
      have hrest : cs.filter (fun c2 => c2.race_id == c.race_id) = [] :=
        filter_id_not_mem cs c.race_id hnd.1
      simp [List.filter_cons, List.any_cons, hrest]
    · have hb : (c.race_id == k) = false := by simp [hck]
      simp [List.filter_cons, List.any_cons, hb, ih hnd.2]

/-- Under distinct city ids, the join output is exactly the `races` rows
that have a matching city id, each mapped to its record, in `races` order. -/
lemma select_aux (cities : List CityRow)
    (hnd : (cities.map (fun c => c.race_id)).Nodup) :
    ∀ races : List RaceRow,
      races.flatMap (fun r =>
        (cities.filter (fun c => c.race_id == r.race_id)).map (fun _ => toRec r)) =
      (races.filter (fun r => cities.any (fun c => c.race_id == r.race_id))).map toRec := by
  intro races
  induction races with
  | nil => simp
  | cons r rs ih =>
    rw [List.flatMap_cons, join_group cities r.race_id (toRec r) hnd, List.filter_cons, ih]
    by_cases h : cities.any (fun c => c.race_id == r.race_id) = true
    · rw [if_pos h, if_pos h, List.map_cons, List.singleton_append]
    · rw [if_neg h, if_neg h, List.nil_append]

/-- The length of the per-record output block of `display_plane`: each
record contributes its row line and a frame line. -/
lemma flatMap_pair_length (l : List (Nat × PlaneDict)) :
    (l.flatMap (fun ip =>
      [OutEvent.printed (rowLine ip.1 ip.2), OutEvent.printed tableLine])).length
      = 2 * l.length := by
  induction l with
  | nil => simp
  | cons a l ih =>
    rw [List.flatMap_cons]
    simp [ih]
    ring

/-! ### The claims -/

/-- Claim C1, counterexample: from a fresh store, after the successful calls
addRace(db, A, 1, 10) and addRace(db, A, 2, 20) — a state reachable by
successful addRace calls — the listing does not contain the record of the
second call: its races row got id 2, but the only cities row has id 1, and
the join is on those ids. -/
theorem spec_c1_counterexample :
    ¬ ∃ r ∈ select_allplanes (add_plane (add_plane dbEmpty "A" 1 10) "A" 2 20),
        r.race = "A" ∧ r.number = 2 ∧ r.type = 20 := by decide

/-- Claim C1, amended: when the destination names of the whole sequence of
successful addRace calls from a fresh store are pairwise distinct, the
record of the last call does appear in listAllRaces; in particular
addRace(db, Stavropol, 9120, 82) as the only call. -/
theorem spec_c1 (ops : List (String × Int × Int)) (d : String) (n t : Int)
    (hnd : ((ops ++ [(d, n, t)]).map (fun o => o.1)).Nodup) :
    ∃ r ∈ select_allplanes (addAll dbEmpty (ops ++ [(d, n, t)])),
      r.race = d ∧ r.number = n ∧ r.type = t := by
  have hmapped : (ops.map (fun o => o.1) ++ [d]).Nodup := by simpa using hnd
  rw [List.nodup_append] at hmapped
  have hdfresh : d ∉ ops.map (fun o => o.1) :=
    fun hmem => hmapped.2.2 hmem (List.mem_singleton.mpr rfl)
  obtain ⟨hnames, hlen⟩ :=
    addAll_cities_spec ops dbEmpty (by simpa [dbEmpty] using hmapped.1) (by simp [dbEmpty])
  set db0 := addAll dbEmpty ops with hdb0
  have hfresh0 : d ∉ db0.cities.map (fun c => c.race_name) := by
    rw [hnames]
    simpa [dbEmpty] using hdfresh
  have hsplit : addAll dbEmpty (ops ++ [(d, n, t)]) = add_plane db0 d n t := by
    rw [hdb0]
    simp [addAll, List.foldl_append]
  have hcity : (⟨nextId db0.cities, d⟩ : CityRow) ∈ (add_plane db0 d n t).cities := by
    rw [add_plane_cities_fresh db0 d n t hfresh0]
    exact List.mem_append_right _ (List.mem_singleton.mpr rfl)
  have hrace : (⟨nextId db0.races, d, n, t⟩ : RaceRow) ∈ (add_plane db0 d n t).races := by
    rw [add_plane_races]
    exact List.mem_append_right _ (List.mem_singleton.mpr rfl)
  have hid : (⟨nextId db0.cities, d⟩ : CityRow).race_id
      = (⟨nextId db0.races, d, n, t⟩ : RaceRow).race_id := by
    simp [nextId, hlen]
  have hmem := mem_select (add_plane db0 d n t)
    ⟨nextId db0.races, d, n, t⟩ ⟨nextId db0.cities, d⟩ hrace hcity hid
  rw [hsplit]
  exact ⟨toRec ⟨nextId db0.races, d, n, t⟩, hmem, rfl, rfl, rfl⟩

/-- Claim C1 amended, witness: the single call addRace(db, Stavropol, 9120,
82) on a fresh store, whose listing contains that record. -/
theorem spec_c1_witness :
    ((([] ++ [("Stavropol", 9120, 82)] : List (String × Int × Int))).map
      (fun o => o.1)).Nodup ∧
    ∃ r ∈ select_allplanes
        (addAll dbEmpty ([] ++ [("Stavropol", 9120, 82)] : List (String × Int × Int))),
      r.race = "Stavropol" ∧ r.number = 9120 ∧ r.type = 82 :=
  ⟨by decide, spec_c1 [] "Stavropol" 9120 82 (by decide)⟩

/-- Claim C2: under the PRIMARY KEY invariant (distinct city ids) and
consecutive ids (every city id at most the row count), the listing is
exactly the races rows possessing a cities row with the same surrogate id —
the join is on the two autoincrement ids, not the stored name — a races row
belongs to the joined rows iff such a cities row exists, and any races row
whose id exceeds the number of cities rows matches nothing and is silently
omitted. -/
theorem spec_c2 (db : DB)
    (hnd : (db.cities.map (fun c => c.race_id)).Nodup)
    (hle : ∀ c ∈ db.cities, c.race_id ≤ db.cities.length) :
    select_allplanes db =
      (db.races.filter (fun r => db.cities.any (fun c => c.race_id == r.race_id))).map toRec ∧
    (∀ r : RaceRow,
      r ∈ db.races.filter (fun r2 => db.cities.any (fun c => c.race_id == r2.race_id)) ↔
        r ∈ db.races ∧ ∃ c ∈ db.cities, c.race_id = r.race_id) ∧
    ∀ r ∈ db.races, db.cities.length < r.race_id →
      db.cities.any (fun c => c.race_id == r.race_id) = false := by
  refine ⟨select_aux db.cities hnd db.races, ?_, ?_⟩
  · intro r
    rw [List.mem_filter]
    constructor
    · rintro ⟨h1, h2⟩
      obtain ⟨c, hc, he⟩ := List.any_eq_true.mp h2
      exact ⟨h1, c, hc, by simpa using he⟩
    · rintro ⟨h1, c, hc, he⟩
      exact ⟨h1, List.any_eq_true.mpr ⟨c, hc, by simp [he]⟩⟩
  · intro r _ hgt
    apply List.any_eq_false.mpr
    intro c hc
    simp only [beq_iff_eq]
    intro he
    have := hle c hc
    omega

/-- Claim C2, witness: a store holding one city (id 1) and two races rows
(ids 1 and 2); the join keeps only the first races row. -/
theorem spec_c2_witness :
    (([⟨1, "A"⟩] : List CityRow).map (fun c => c.race_id)).Nodup ∧
    (∀ c ∈ ([⟨1, "A"⟩] : List CityRow), c.race_id ≤ ([⟨1, "A"⟩] : List CityRow).length) ∧
    select_allplanes ⟨[⟨1, "A"⟩], [⟨1, "A", 1, 10⟩, ⟨2, "A", 2, 20⟩]⟩ =
      ((⟨[⟨1, "A"⟩], [⟨1, "A", 1, 10⟩, ⟨2, "A", 2, 20⟩]⟩ : DB).races.filter
        (fun r => (⟨[⟨1, "A"⟩], [⟨1, "A", 1, 10⟩, ⟨2, "A", 2, 20⟩]⟩ : DB).cities.any
          (fun c => c.race_id == r.race_id))).map toRec :=
  ⟨by decide, by decide,
    (spec_c2 ⟨[⟨1, "A"⟩], [⟨1, "A", 1, 10⟩, ⟨2, "A", 2, 20⟩]⟩ (by decide) (by decide)).1⟩

/-- Claim C3: every successful add_plane appends exactly one races row; the
cities table is unchanged when the name was seen and grows by exactly the
one new row when it was unseen; and two adds with the same name from a
fresh store leave exactly one cities row bearing that name and two races
rows. -/
theorem spec_c3 (db : DB) (d : String) (n t : Int) :
    (add_plane db d n t).races.length = db.races.length + 1 ∧
    (if d ∈ db.cities.map (fun c => c.race_name)
      then (add_plane db d n t).cities = db.cities
      else (add_plane db d n t).cities = db.cities ++ [⟨nextId db.cities, d⟩]) ∧
    ∀ n1 t1 n2 t2 : Int,
      ((add_plane (add_plane dbEmpty d n1 t1) d n2 t2).cities.filter
        (fun c => c.race_name == d)).length = 1 ∧
      (add_plane (add_plane dbEmpty d n1 t1) d n2 t2).races.length = 2 := by
  refine ⟨by rw [add_plane_races]; simp, ?_, ?_⟩
  · by_cases h : d ∈ db.cities.map (fun c => c.race_name)
    · rw [if_pos h]
      exact add_plane_cities_seen db d n t h
    · rw [if_neg h]
      exact add_plane_cities_fresh db d n t h
  · intro n1 t1 n2 t2
    have h1 : (add_plane dbEmpty d n1 t1).cities = [⟨1, d⟩] := by
      rw [add_plane_cities_fresh dbEmpty d n1 t1 (by simp [dbEmpty])]
      rfl
    have hseen : d ∈ (add_plane dbEmpty d n1 t1).cities.map (fun c => c.race_name) := by
      rw [h1]
      simp
    have h2 := add_plane_cities_seen (add_plane dbEmpty d n1 t1) d n2 t2 hseen
    refine ⟨?_, ?_⟩
    · rw [h2, h1]
      simp [List.filter_cons]
    · rw [add_plane_races, add_plane_races]
      simp [dbEmpty]

/-- Claim C4: from a fresh store, the two sequential adds of the scenario
(and of the ordering property) are listed as exactly those two records in
insertion order. -/
theorem spec_c4 :
    select_allplanes (add_plane (add_plane dbEmpty "A" 1 10) "B" 2 20) =
      [⟨"A", 1, 10⟩, ⟨"B", 2, 20⟩] ∧
    select_allplanes
        (add_plane (add_plane dbEmpty "Novoalexandrovsk" 3234 62) "Stavropol" 9120 82) =
      [⟨"Novoalexandrovsk", 3234, 62⟩, ⟨"Stavropol", 9120, 82⟩] := by decide

/-- Claim C5: a storage failure during add_plane reaches the except branch
before the commit, so the committed store keeps its cities and races rows
unchanged — no incomplete insert becomes visible — and the error is logged
while the call returns normally. -/
theorem spec_c5 (db : DB) (race : String) (number type : Int) (e : String) :
    (add_plane_op db race number type (some e)).1.cities = db.cities ∧
    (add_plane_op db race number type (some e)).1.races = db.races ∧
    (add_plane_op db race number type (some e)).2 = some ("Error adding plane: " ++ e) :=
  ⟨rfl, rfl, rfl⟩

/-- Claim C6: a storage failure during select_allplanes yields the empty
list with the error logged and nothing raised, and that result coincides
with the successful result on a genuinely empty store, so the caller cannot
tell the two apart. -/
theorem spec_c6 (db : DB) (e : String) :
    (select_allplanes_op db (some e)).1 = [] ∧
    (select_allplanes_op db (some e)).2 = some ("Error selecting planes: " ++ e) ∧
    (select_allplanes_op db (some e)).1 = (select_allplanes_op dbEmpty none).1 :=
  ⟨rfl, rfl, rfl⟩

/-- Claim C7: create_db is idempotent, it leaves both tables existing, and
on a store where both tables already exist it is a no-op, contents
included. -/
theorem spec_c7 (s s' : Store)
    (hc : s.citiesTable.isSome = true) (hr : s.racesTable.isSome = true) :
    create_db (create_db s') = create_db s' ∧
    (create_db s').citiesTable.isSome = true ∧
    (create_db s').racesTable.isSome = true ∧
    create_db s = s := by
  obtain ⟨ct, rt⟩ := s
  obtain ⟨ct2, rt2⟩ := s'
  cases ct <;> cases rt <;> cases ct2 <;> cases rt2 <;>
    simp_all [create_db, createTableIfNotExists]

/-- Claim C7, witness: a store with both tables present (one city row) and
a store with no tables at all. -/
theorem spec_c7_witness :
    ((⟨some [⟨1, "A"⟩], some []⟩ : Store).citiesTable.isSome = true) ∧
    ((⟨some [⟨1, "A"⟩], some []⟩ : Store).racesTable.isSome = true) ∧
    (create_db (create_db (⟨none, none⟩ : Store)) = create_db (⟨none, none⟩ : Store) ∧
      (create_db (⟨none, none⟩ : Store)).citiesTable.isSome = true ∧
      (create_db (⟨none, none⟩ : Store)).racesTable.isSome = true ∧
      create_db (⟨some [⟨1, "A"⟩], some []⟩ : Store) = (⟨some [⟨1, "A"⟩], some []⟩ : Store)) :=
  ⟨rfl, rfl, spec_c7 ⟨some [⟨1, "A"⟩], some []⟩ ⟨none, none⟩ rfl rfl⟩

/-- The rows of a table that may not exist yet: an absent table holds no
rows. -/
def rowsOf (table : Option (List α)) : List α := table.getD []

/-- Claim C8: the select subcommand performs exactly the schema-ensure step
that every invocation performs, and it leaves the rows of both tables
exactly as they were (only missing tables are created, empty). -/
theorem spec_c8 (s : Store) :
    main_run s .select = create_db s ∧
    rowsOf (main_run s .select).citiesTable = rowsOf s.citiesTable ∧
    rowsOf (main_run s .select).racesTable = rowsOf s.racesTable := by
  obtain ⟨ct, rt⟩ := s
  refine ⟨rfl, ?_, ?_⟩ <;> cases ct <;> cases rt <;> rfl

/-- Claim C9: listing a freshly initialized empty store yields the empty
sequence; display_plane on the empty sequence emits only the informational
log message and prints no row; and display_plane is total pure formatting,
always producing exactly one log event on empty input and 3 + 2n printed
lines on n records. -/
theorem spec_c9 :
    store_select (create_db ⟨none, none⟩) = [] ∧
    display_plane [] = [.logged "The flight list is empty."] ∧
    ∀ staff : List PlaneDict,
      (display_plane staff).length = if staff.isEmpty then 1 else 3 + 2 * staff.length := by
  refine ⟨rfl, rfl, ?_⟩
  intro staff
  cases staff with
  | nil => rfl
  | cons p rest =>
    rw [display_plane, if_neg (by simp), if_neg (by simp),
      List.length_append, flatMap_pair_length, List.enumFrom_length]
    simp [List.length_cons]

/-- Claim C10: display_plane is total on records missing any of their
fields: the row rendered for a record goes through the three defaulting get
calls, so a missing destination renders as the empty string, a missing race
number as the empty string and a missing plane type as 0, and no lookup
can fail. -/
theorem spec_c10 (p : PlaneDict) (idx : Nat) :
    rowLine idx p = mkRowLine idx (raceCell p) (numberCell p) (typeCell p) ∧
    (p.race = none → raceCell p = "") ∧
    (p.number = none → numberCell p = "") ∧
    (p.type = none → typeCell p = 0) := by
  refine ⟨rfl, ?_, ?_, ?_⟩ <;> intro h <;> simp [raceCell, numberCell, typeCell, h]

/-- Claim C10, witness: the record with all three fields missing renders
with the three defaults. -/
theorem spec_c10_witness :
    raceCell ⟨none, none, none⟩ = "" ∧ numberCell ⟨none, none, none⟩ = "" ∧
    typeCell ⟨none, none, none⟩ = 0 :=
  ⟨(spec_c10 ⟨none, none, none⟩ 1).2.1 rfl, (spec_c10 ⟨none, none, none⟩ 1).2.2.1 rfl,
    (spec_c10 ⟨none, none, none⟩ 1).2.2.2 rfl⟩
